import Mathlib

/-!
Verification development for the spacetest repository: a shallow embedding of
the spacer broker service (Subspace/Room namespace creation), the response
fd-set encoding/decoding (EncodeFds/DecodeFds), the wire codec message family,
the client receive path, and the thread-pinned execution primitive
(goInAndOut), together with theorems settling the specification claims.

File descriptor values are embedded as `Int` (Go `int`); namespace type flags
as `Nat` (Go `uint64` clone flag constants). Kernel behaviour that the code
merely invokes (syscall success/failure, fd allocation, namespace type
queries) is abstracted into explicit oracle/state parameters, and each
operation additionally returns the list of kernel-visible events it performed,
so that claims about "no kernel operation", "handles closed", and ordering can
be stated.
-/

namespace Spacetest

/-! ### Clone flag constants (golang.org/x/sys/unix, linux) -/

def CLONE_NEWTIME : Nat := 0x00000080
def CLONE_NEWNS : Nat := 0x00020000
def CLONE_NEWCGROUP : Nat := 0x02000000
def CLONE_NEWUTS : Nat := 0x04000000
def CLONE_NEWIPC : Nat := 0x08000000
def CLONE_NEWUSER : Nat := 0x10000000
def CLONE_NEWPID : Nat := 0x20000000
def CLONE_NEWNET : Nat := 0x40000000

/-- Largest uint64 value; `^mask` on a Go uint64 is `UINT64MAX ^^^ mask`. -/
def UINT64MAX : Nat := 2 ^ 64 - 1

/-- Modelled from the spec: the `spacetest.Name` mapping from namespace clone
flags to the kernel's short type names. Its implementation file is not among
the provided sources; the mapping is pinned exactly by the repository's own
test table (`DescribeTable "type names"`): cgroup, ipc, mnt, net, pid, time,
user, uts, and `""` for anything else. -/
def Name (typ : Nat) : String :=
  if typ = CLONE_NEWCGROUP then "cgroup"
  else if typ = CLONE_NEWIPC then "ipc"
  else if typ = CLONE_NEWNS then "mnt"
  else if typ = CLONE_NEWNET then "net"
  else if typ = CLONE_NEWPID then "pid"
  else if typ = CLONE_NEWTIME then "time"
  else if typ = CLONE_NEWUSER then "user"
  else if typ = CLONE_NEWUTS then "uts"
  else ""

/-! ### API message structures (spacer/api) -/

/-- api.SubspaceRequest: OR-combination of at most CLONE_NEWUSER and
CLONE_NEWPID. -/
structure SubspaceRequest where
  Spaces : Nat
  deriving DecidableEq, Repr

/-- api.RoomsRequest: OR-combination of the six flat namespace clone flags. -/
structure RoomsRequest where
  Spaces : Nat
  deriving DecidableEq, Repr

/-- api.SubspaceResponse (with the embedded api.Subspaces struct flattened
into the User and PID fields). -/
structure SubspaceResponse where
  Conn : Int
  User : Int
  PID : Int
  deriving DecidableEq, Repr

/-- api.RoomsResponse: per-type namespace fd, zero when absent. -/
structure RoomsResponse where
  Cgroup : Int
  IPC : Int
  Mnt : Int
  Net : Int
  Time : Int
  UTS : Int
  deriving DecidableEq, Repr

/-- api.ErrorResponse. -/
structure ErrorResponse where
  Reason : String
  deriving DecidableEq, Repr

/-- The six flat-namespace fields of a RoomsResponse, in the order the Go
struct declares them and the order Room processes them. -/
inductive NsField where
  | Cgroup | IPC | Mnt | Net | Time | UTS
  deriving DecidableEq, Repr

def NsField.flag : NsField → Nat
  | .Cgroup => CLONE_NEWCGROUP
  | .IPC => CLONE_NEWIPC
  | .Mnt => CLONE_NEWNS
  | .Net => CLONE_NEWNET
  | .Time => CLONE_NEWTIME
  | .UTS => CLONE_NEWUTS

def RoomsResponse.get (r : RoomsResponse) : NsField → Int
  | .Cgroup => r.Cgroup
  | .IPC => r.IPC
  | .Mnt => r.Mnt
  | .Net => r.Net
  | .Time => r.Time
  | .UTS => r.UTS

def RoomsResponse.setf (r : RoomsResponse) : NsField → Int → RoomsResponse
  | .Cgroup, fd => { r with Cgroup := fd }
  | .IPC, fd => { r with IPC := fd }
  | .Mnt, fd => { r with Mnt := fd }
  | .Net, fd => { r with Net := fd }
  | .Time, fd => { r with Time := fd }
  | .UTS, fd => { r with UTS := fd }

/-- The order in which Spacemaker.Room issues its six per-type unshare calls
(and equally the order in which RoomsResponse fields are scanned). -/
def roomOrder : List NsField := [.Cgroup, .IPC, .Mnt, .Net, .Time, .UTS]

/-! ### auxiliaryFds.borrow and the EncodeFds methods (spacer/api) -/

/-- api.auxiliaryFds.borrow: when the referenced fd is open (> 0), append it to
the out-of-band list and zero the field; otherwise leave both unchanged.
Returns the updated list together with the new field value. -/
def borrow (f : List Int) (fd : Int) : List Int × Int :=
  if fd ≤ 0 then (f, fd) else (f ++ [fd], 0)

/-- RoomsResponse.EncodeFds: scan the six fields in declaration order, moving
each open fd into the auxiliary list and zeroing its field. Returns the fd
list and the mutated response. -/
def RoomsResponse.EncodeFds (s : RoomsResponse) : List Int × RoomsResponse :=
  let b0 := borrow [] s.Cgroup
  let b1 := borrow b0.1 s.IPC
  let b2 := borrow b1.1 s.Mnt
  let b3 := borrow b2.1 s.Net
  let b4 := borrow b3.1 s.Time
  let b5 := borrow b4.1 s.UTS
  (b5.1, ⟨b0.2, b1.2, b2.2, b3.2, b4.2, b5.2⟩)

/-- SubspaceResponse.EncodeFds: borrow Conn, then User, then PID. -/
def SubspaceResponse.EncodeFds (s : SubspaceResponse) : List Int × SubspaceResponse :=
  let b0 := borrow [] s.Conn
  let b1 := borrow b0.1 s.User
  let b2 := borrow b1.1 s.PID
  (b2.1, ⟨b0.2, b1.2, b2.2⟩)

/-! ### The DecodeFds methods (spacer/api)

The kernel's NS_GET_NSTYPE ioctl is abstracted as a total function
`tf : Int → Nat` from fd to reported namespace type; the Go code ignores the
ioctl error (`typ, _ := unix.IoctlRetInt(...)`), so a non-namespace fd simply
reports a value outside the expected set and falls into the default case.
Each decode returns the updated response together with the list of fds it
closed, in order. -/

/-- One iteration of the RoomsResponse.DecodeFds loop body: dispatch a single
received fd on its kernel-reported type, or close it. -/
def roomsDecodeStep (tf : Int → Nat) (acc : RoomsResponse × List Int) (fd : Int) :
    RoomsResponse × List Int :=
  let t := tf fd
  if t = CLONE_NEWCGROUP then ({ acc.1 with Cgroup := fd }, acc.2)
  else if t = CLONE_NEWIPC then ({ acc.1 with IPC := fd }, acc.2)
  else if t = CLONE_NEWNS then ({ acc.1 with Mnt := fd }, acc.2)
  else if t = CLONE_NEWNET then ({ acc.1 with Net := fd }, acc.2)
  else if t = CLONE_NEWTIME then ({ acc.1 with Time := fd }, acc.2)
  else if t = CLONE_NEWUTS then ({ acc.1 with UTS := fd }, acc.2)
  else (acc.1, acc.2 ++ [fd])

/-- RoomsResponse.DecodeFds: distribute every received fd into the field for
its kernel-reported type, closing any fd of an unexpected type. -/
def RoomsResponse.DecodeFds (s : RoomsResponse) (tf : Int → Nat) (fds : List Int) :
    RoomsResponse × List Int :=
  fds.foldl (roomsDecodeStep tf) (s, [])

/-- One iteration of the SubspaceResponse.DecodeFds loop over `fds[1:]`:
dispatch on the kernel-reported type, accepting only user and pid. -/
def subspaceDecodeStep (tf : Int → Nat) (acc : SubspaceResponse × List Int) (fd : Int) :
    SubspaceResponse × List Int :=
  let t := tf fd
  if t = CLONE_NEWUSER then ({ acc.1 with User := fd }, acc.2)
  else if t = CLONE_NEWPID then ({ acc.1 with PID := fd }, acc.2)
  else (acc.1, acc.2 ++ [fd])

/-- SubspaceResponse.DecodeFds: the Go code assigns `s.Conn = fds[0]`
unconditionally and then loops over `fds[1:]`. Indexing `fds[0]` of an empty
slice panics at run time; the panic is embedded as `none`. -/
def SubspaceResponse.DecodeFds (s : SubspaceResponse) (tf : Int → Nat) (fds : List Int) :
    Option (SubspaceResponse × List Int) :=
  match fds with
  | [] => none
  | fd0 :: rest => some (rest.foldl (subspaceDecodeStep tf) ({ s with Conn := fd0 }, []))

/-! ### Kernel model: fd allocation, namespace type tags, and events

The kernel allocates fds sequentially from `nextFd` and records the namespace
type each allocated namespace fd references (`fdTypes`); the NS_GET_NSTYPE
query is `NsKernel.typeOf`. Every service operation additionally produces the
ordered list of kernel-visible events it performed. -/

structure NsKernel where
  nextFd : Int
  fdTypes : List (Int × Nat)
  deriving DecidableEq, Repr

/-- Allocate a fresh fd referencing a namespace of the given type. -/
def NsKernel.alloc (k : NsKernel) (typ : Nat) : Int × NsKernel :=
  (k.nextFd, ⟨k.nextFd + 1, (k.nextFd, typ) :: k.fdTypes⟩)

/-- The kernel-reported namespace type of an fd (NS_GET_NSTYPE). -/
def NsKernel.typeOf (k : NsKernel) (fd : Int) : Option Nat :=
  k.fdTypes.lookup fd

/-- Kernel well-formedness: every recorded fd is below the allocation
counter (so freshly allocated fds never collide with recorded ones). -/
def KWF (k : NsKernel) : Prop :=
  ∀ p ∈ k.fdTypes, p.1 < k.nextFd

/-- Kernel-visible events, in the order the service performs them. -/
inductive Event where
  | unitStart (typ : Nat)
  | unitEnd (typ : Nat)
  | openNs (typ : Nat) (fd : Int)
  | unshareFs
  | unshare (typ : Nat)
  | mountRootPrivate
  | setns (fd : Int) (typ : Nat)
  | close (fd : Int)
  | socketpair (fd1 fd2 : Int)
  | dupFd (src dst : Int)
  | spawnChild
  deriving DecidableEq, Repr

/-- Responses as dispatched by the service (api.Response interface). -/
inductive Response where
  | subspace (r : SubspaceResponse)
  | rooms (r : RoomsResponse)
  | error (r : ErrorResponse)
  deriving DecidableEq, Repr

/-! ### Spacemaker.newNamespace (spacer/service/spacer.go)

Each syscall the function performs may fail; which one fails (and with which
error text) is determined by a `FailOracle`. `none` means the syscall
succeeds. -/

structure FailOracle where
  openCur : Nat → Option String
  unshareFs : Option String
  unshare : Nat → Option String
  mountPrivate : Option String
  openNew : Nat → Option String

/-- Spacemaker.newNamespace: open the worker thread's current namespace of
the target type (for hygiene restoration), unshare filesystem attributes when
the target is the mount type, unshare the target type, remount / recursively
private for the mount type, re-open the (now new) current namespace and return
its fd. The deferred `Setns(callerns, 0); Close(callerns)` runs on every exit
path after the first open succeeded. On failure the function returns the error
(Go returns fd 0 plus the error). -/
def newNamespace (o : FailOracle) (typ : Nat) (k : NsKernel) :
    Except String Int × NsKernel × List Event :=
  match o.openCur typ with
  | some e => (.error e, k, [])
  | none =>
    let a := k.alloc typ
    let callerns := a.1
    let k1 := a.2
    let deferEv := [Event.setns callerns 0, Event.close callerns]
    let ev1 := [Event.openNs typ callerns]
    match (if typ = CLONE_NEWNS then o.unshareFs else none) with
    | some e => (.error e, k1, ev1 ++ deferEv)
    | none =>
      let ev2 := ev1 ++ (if typ = CLONE_NEWNS then [Event.unshareFs] else [])
      match o.unshare typ with
      | some e => (.error e, k1, ev2 ++ deferEv)
      | none =>
        let ev3 := ev2 ++ [Event.unshare typ]
        match (if typ = CLONE_NEWNS then o.mountPrivate else none) with
        | some e => (.error e, k1, ev3 ++ deferEv)
        | none =>
          let ev4 := ev3 ++ (if typ = CLONE_NEWNS then [Event.mountRootPrivate] else [])
          match o.openNew typ with
          | some e => (.error e, k1, ev4 ++ deferEv)
          | none =>
            let b := k1.alloc typ
            let newns := b.1
            let k2 := b.2
            (.ok newns, k2, ev4 ++ [Event.openNs typ newns] ++ deferEv)

/-- The error newNamespace reports for a given type under a given oracle:
the message of the first failing stage, or `none` when every stage succeeds. -/
def unitErr (o : FailOracle) (typ : Nat) : Option String :=
  match o.openCur typ with
  | some e => some e
  | none =>
    match (if typ = CLONE_NEWNS then o.unshareFs else none) with
    | some e => some e
    | none =>
      match o.unshare typ with
      | some e => some e
      | none =>
        match (if typ = CLONE_NEWNS then o.mountPrivate else none) with
        | some e => some e
        | none => o.openNew typ

/-! ### Spacemaker.Room (spacer/service/spacer.go) -/

/-- The `validSpaces` constant of spacer.go: the six flat namespace types. -/
def validSpaces : Nat :=
  CLONE_NEWCGROUP ||| CLONE_NEWIPC ||| CLONE_NEWNS |||
  CLONE_NEWNET ||| CLONE_NEWTIME ||| CLONE_NEWUTS

/-- Accumulator threading the Room loop state: the response being filled in,
the aggregated error message, the kernel, and the event trace. -/
structure RoomAcc where
  resp : RoomsResponse
  errmsg : String
  k : NsKernel
  trace : List Event
  deriving Repr

/-- The errmsg aggregation of Room: `if errmsg != "" { errmsg += "," };
errmsg += Name(typ) + ":" + err.Error()`. -/
def addErr (errmsg : String) (typ : Nat) (e : String) : String :=
  (if errmsg = "" then "" else errmsg ++ ",") ++ Name typ ++ ":" ++ e

/-- The local `unshare` closure of Room for one namespace type: skip when the
type is not requested; otherwise run newNamespace on a fresh throw-away
goroutine (started, then immediately joined on its result channel before the
next type is handled), recording the unit's start and completion; a failure is
appended to errmsg, a success stored into the type's response field. -/
def roomUnshare (o : FailOracle) (spaces : Nat) (f : NsField) (acc : RoomAcc) : RoomAcc :=
  if spaces &&& f.flag = 0 then acc
  else
    let r := newNamespace o f.flag acc.k
    let trace := acc.trace ++ [Event.unitStart f.flag] ++ r.2.2 ++ [Event.unitEnd f.flag]
    match r.1 with
    | .error e => { acc with errmsg := addErr acc.errmsg f.flag e, k := r.2.1, trace := trace }
    | .ok fd => { acc with resp := acc.resp.setf f fd, k := r.2.1, trace := trace }

/-- The close-every-open-field pass of Room's failure path: `if resp.X > 0 {
unix.Close(resp.X) }` for the six fields in declaration order. -/
def roomCloseEvents (resp : RoomsResponse) : List Event :=
  (roomOrder.filter (fun f => 0 < resp.get f)).map (fun f => Event.close (resp.get f))

/-- The state after Room's six sequential per-type unshare units, starting
from the zero api.RoomsResponse and an empty error message. -/
def roomAccFinal (o : FailOracle) (req : RoomsRequest) (k : NsKernel) : RoomAcc :=
  roomOrder.foldl (fun acc f => roomUnshare o req.Spaces f acc)
    ⟨⟨0, 0, 0, 0, 0, 0⟩, "", k, []⟩

/-- Spacemaker.Room: validate the request, then run the six per-type unshare
units in field order, then either return all handles together or (when any
unit failed) close every successfully obtained handle and return the single
aggregated error response. -/
def Room (o : FailOracle) (req : RoomsRequest) (k : NsKernel) :
    Response × NsKernel × List Event :=
  if req.Spaces &&& (UINT64MAX ^^^ validSpaces) ≠ 0 then
    (.error ⟨"out of space"⟩, k, [])
  else if req.Spaces &&& validSpaces = 0 then
    (.error ⟨"no space requested"⟩, k, [])
  else
    let acc := roomAccFinal o req k
    if acc.errmsg ≠ "" then
      (.error ⟨acc.errmsg⟩, acc.k, acc.trace ++ roomCloseEvents acc.resp)
    else
      (.rooms acc.resp, acc.k, acc.trace)

/-! ### Spacemaker.Subspace (spacer/service/spacer.go) -/

/-- Allocate a fresh fd that does not reference a namespace (socket endpoints,
file duplicates). -/
def NsKernel.allocRaw (k : NsKernel) : Int × NsKernel :=
  (k.nextFd, ⟨k.nextFd + 1, k.fdTypes⟩)

/-- Which steps of the Subspace path fail, and with which error text. -/
structure SubspaceOracle where
  newPair : Option String
  dupontFile : Option String
  start : Option String
  dupondFile : Option String
  dup : Option String
  openUserNs : Option String
  openPidNs : Option String

/-- The tail of Subspace handling the requested PID namespace: `var userfd,
pidfd int` start at zero; on a failure to open the new PID namespace the code
closes `userfd` (whatever its value, including 0 when the user namespace was
never requested) and then `connfd`. `ev` are the events so far and `deferEv`
the deferred closes running on every exit. -/
def subspacePidPart (o : SubspaceOracle) (spaces : Nat) (connfd userfd : Int)
    (k : NsKernel) (ev deferEv : List Event) : Response × NsKernel × List Event :=
  if spaces &&& CLONE_NEWPID ≠ 0 then
    match o.openPidNs with
    | some e =>
      (.error ⟨"failed to determine new PID namespace, reason: " ++ e⟩, k,
        ev ++ [Event.close userfd, Event.close connfd] ++ deferEv)
    | none =>
      let g := k.alloc CLONE_NEWPID
      (.subspace ⟨connfd, userfd, g.1⟩, g.2,
        ev ++ [Event.openNs CLONE_NEWPID g.1] ++ deferEv)
  else
    (.subspace ⟨connfd, userfd, 0⟩, k, ev ++ deferEv)

/-- Spacemaker.Subspace: validate the request; create a connected unix domain
socket pair; obtain an *os.File duplicate of the service end; spawn the child
broker process (passing the duplicate and the requested clone flags plus the
1:1 root uid/gid mappings); obtain an *os.File duplicate of the client end and
`unix.Dup` it into the fd returned in the response; open
`/proc/<child>/ns/user` and `/proc/<child>/ns/pid` for the requested
hierarchical types. Deferred closes of the pair endpoints and the two
*os.File duplicates run LIFO on every exit path past their registration; every
failure yields an ErrorResponse with the specific reason text. -/
def Subspace (o : SubspaceOracle) (req : SubspaceRequest) (k : NsKernel) :
    Response × NsKernel × List Event :=
  if req.Spaces &&& (UINT64MAX ^^^ (CLONE_NEWUSER ||| CLONE_NEWPID)) ≠ 0 then
    (.error ⟨"out of space"⟩, k, [])
  else if req.Spaces &&& (CLONE_NEWUSER ||| CLONE_NEWPID) = 0 then
    (.error ⟨"no space requested"⟩, k, [])
  else
    match o.newPair with
    | some e => (.error ⟨"failed to create unix domain socket pair, reason: " ++ e⟩, k, [])
    | none =>
      let a := k.allocRaw
      let dupond := a.1
      let b := a.2.allocRaw
      let dupont := b.1
      let k1 := b.2
      let deferPair := [Event.close dupond, Event.close dupont]
      let ev0 := [Event.socketpair dupond dupont]
      match o.dupontFile with
      | some e =>
        (.error ⟨"failed to fetch service *os.File, reason: " ++ e⟩, k1, ev0 ++ deferPair)
      | none =>
        let c := k1.allocRaw
        let dupontf := c.1
        let k2 := c.2
        let ev1 := ev0 ++ [Event.dupFd dupont dupontf]
        match o.start with
        | some e =>
          (.error ⟨"failed to start sub service, reason: " ++ e⟩, k2,
            ev1 ++ [Event.close dupontf] ++ deferPair)
        | none =>
          let ev2 := ev1 ++ [Event.spawnChild]
          match o.dupondFile with
          | some e =>
            (.error ⟨"failed to fetch client *os.File, reason: " ++ e⟩, k2,
              ev2 ++ [Event.close dupontf] ++ deferPair)
          | none =>
            let d := k2.allocRaw
            let dupondf := d.1
            let k3 := d.2
            let ev3 := ev2 ++ [Event.dupFd dupond dupondf]
            let deferEv := [Event.close dupondf, Event.close dupontf] ++ deferPair
            match o.dup with
            | some e =>
              (.error ⟨"failed to fetch client fd, reason: " ++ e⟩, k3, ev3 ++ deferEv)
            | none =>
              let e' := k3.allocRaw
              let connfd := e'.1
              let k4 := e'.2
              let ev4 := ev3 ++ [Event.dupFd dupondf connfd]
              if req.Spaces &&& CLONE_NEWUSER ≠ 0 then
                match o.openUserNs with
                | some e =>
                  (.error ⟨"failed to determine new user namespace, reason: " ++ e⟩, k4,
                    ev4 ++ [Event.close connfd] ++ deferEv)
                | none =>
                  let f' := k4.alloc CLONE_NEWUSER
                  subspacePidPart o req.Spaces connfd f'.1 f'.2
                    (ev4 ++ [Event.openNs CLONE_NEWUSER f'.1]) deferEv
              else
                subspacePidPart o req.Spaces connfd 0 k4 ev4 deferEv

/-! ### goInAndOut: the thread-pinned execution primitive, non-mount path
(execute.go)

The kernel interactions are abstracted into an oracle: `typeOf` is
`Type(nsfd)` (the NS_GET_NSTYPE query on an fd), `current` is `Current(typ)`
(an fd referencing the calling thread's current namespace of a type), and
`setnsOk fd flag` tells whether `unix.Setns(fd, flag)` succeeds. A Gomega
`Expect(...).To(Succeed())` failure is a panic that aborts the enclosing
logical task; in the deferred restoration block it propagates out of the
defer, skipping both the remaining restorations and `UnlockOSThread`. -/

structure ExecOracle where
  typeOf : Int → Nat
  current : Nat → Int
  setnsOk : Int → Nat → Bool

/-- Outcome of a goInAndOut run. -/
inductive ExecOutcome where
  | ok
  | attachPanic (typ : Nat)
  | restoreAbort (typ : Nat)
  deriving DecidableEq, Repr

/-- Observable result of a goInAndOut run: the outcome, whether the caller
logic ran, the fds passed to Setns during the deferred restoration phase in
call order, and whether the OS-level thread was unlocked again. -/
structure ExecResult where
  outcome : ExecOutcome
  ranFn : Bool
  restoreSetns : List Int
  unlocked : Bool
  deriving DecidableEq, Repr

/-- The attachment loop of goInAndOut: for each passed fd, record the calling
thread's current namespace of that fd's type into callersNamespaces, then
switch into the fd. On a switch failure the Gomega panic carries the type;
the recorded list (including the just-recorded entry) is what the recover
branch will walk. -/
def attachAll (o : ExecOracle) : List Int → List Int → Except (Nat × List Int) (List Int)
  | recorded, [] => .ok recorded
  | recorded, fd :: rest =>
    let typ := o.typeOf fd
    let recorded' := recorded ++ [o.current typ]
    if o.setnsOk fd typ then attachAll o recorded' rest
    else .error (typ, recorded')

/-- The deferred restoration loop of goInAndOut over the already-reversed
callersNamespaces: `Expect(unix.Setns(nsfd, 0)).To(Succeed())` per entry;
returns the Setns calls actually made, and the failing namespace's type (as
identified by the failure diagnostic `cannot restore <name> namespace`, which
renders `Name(Type(nsfd))`) when one of them fails. -/
def restoreAll (o : ExecOracle) : List Int → List Int × Option Nat
  | [] => ([], none)
  | fd :: rest =>
    if o.setnsOk fd 0 then
      let r := restoreAll o rest
      (fd :: r.1, r.2)
    else ([fd], some (o.typeOf fd))

/-- goInAndOut: lock the goroutine to its OS-level thread; attach to each
passed namespace fd in order, recording the original namespaces; run fn; on
return walk the recorded namespaces backward restoring each one, aborting on
the first restoration failure; unlock the thread only after every restoration
succeeded. When attachment itself fails, the recover branch silently walks
the recorded namespaces backward and re-panics without unlocking. -/
def goInAndOut (o : ExecOracle) (othernsfds : List Int) : ExecResult :=
  match attachAll o [] othernsfds with
  | .error (typ, recorded) =>
    { outcome := .attachPanic typ, ranFn := false,
      restoreSetns := recorded.reverse, unlocked := false }
  | .ok recorded =>
    let r := restoreAll o recorded.reverse
    match r.2 with
    | some typ =>
      { outcome := .restoreAbort typ, ranFn := true,
        restoreSetns := r.1, unlocked := false }
    | none =>
      { outcome := .ok, ranFn := true,
        restoreSetns := r.1, unlocked := true }

/-! ### Wire codec (spacer/gobmsg + the api registration)

Modelled from the spec: the byte-level gob stream format is provided by the
Go standard library's encoding/gob, which is not part of this repository's
sources; per spec §4.1 the codec serializes the closed, registered family of
request/response variants into a buffer with an embedded type tag supporting
polymorphic decode. The model serializes each registered variant
(ErrorResponse, SubspaceRequest, SubspaceResponse, RoomsRequest,
RoomsResponse — exactly the types registered in api.init) as a tag followed
by its public fields, strings as length plus character codes. -/

/-- Modelled from the spec: the closed family of registered wire-codec
variants (exactly the types registered by api.init with the gob codec). -/
inductive Msg where
  | errorResponse (r : ErrorResponse)
  | subspaceRequest (r : SubspaceRequest)
  | subspaceResponse (r : SubspaceResponse)
  | roomsRequest (r : RoomsRequest)
  | roomsResponse (r : RoomsResponse)
  deriving DecidableEq, Repr

/-- Modelled from the spec: serialize an Int field as sign flag plus
magnitude (the gob byte format itself is standard-library code outside this
repository). -/
def encInt (i : Int) : List Nat :=
  [if i < 0 then 1 else 0, i.natAbs]

/-- Modelled from the spec: deserialize an Int field, returning the
remainder of the stream. -/
def decInt : List Nat → Option (Int × List Nat)
  | s :: m :: rest => some (if s = 1 then -(m : Int) else (m : Int), rest)
  | _ => none

/-- Modelled from the spec: serialize a String field as length plus
character codes. -/
def encStr (s : String) : List Nat :=
  s.length :: s.data.map Char.toNat

/-- Modelled from the spec: deserialize a String field, returning the
remainder of the stream. -/
def decStr : List Nat → Option (String × List Nat)
  | [] => none
  | n :: rest =>
    if n ≤ rest.length then
      some (⟨(rest.take n).map Char.ofNat⟩, rest.drop n)
    else none

/-- Modelled from the spec: encode a registered variant as a type tag
followed by its public fields (§4.1: tagged stream, polymorphic decode). -/
def encodeMsg : Msg → List Nat
  | .errorResponse r => 0 :: encStr r.Reason
  | .subspaceRequest r => 1 :: [r.Spaces]
  | .subspaceResponse r => 2 :: (encInt r.Conn ++ encInt r.User ++ encInt r.PID)
  | .roomsRequest r => 3 :: [r.Spaces]
  | .roomsResponse r =>
    4 :: (encInt r.Cgroup ++ encInt r.IPC ++ encInt r.Mnt ++
      encInt r.Net ++ encInt r.Time ++ encInt r.UTS)

/-- Modelled from the spec: decode a value of unknown concrete variant from
the stream, dispatching on the embedded type tag; an unregistered tag or a
truncated stream fails. -/
def decodeMsg (w : List Nat) : Option Msg :=
  match w with
  | [] => none
  | t :: rest =>
    if t = 0 then
      (decStr rest).map (fun p => .errorResponse ⟨p.1⟩)
    else if t = 1 then
      match rest with
      | [n] => some (.subspaceRequest ⟨n⟩)
      | _ => none
    else if t = 2 then
      (decInt rest).bind fun p1 =>
        (decInt p1.2).bind fun p2 =>
          (decInt p2.2).map fun p3 =>
            .subspaceResponse ⟨p1.1, p2.1, p3.1⟩
    else if t = 3 then
      match rest with
      | [n] => some (.roomsRequest ⟨n⟩)
      | _ => none
    else if t = 4 then
      (decInt rest).bind fun p1 =>
        (decInt p1.2).bind fun p2 =>
          (decInt p2.2).bind fun p3 =>
            (decInt p3.2).bind fun p4 =>
              (decInt p4.2).bind fun p5 =>
                (decInt p5.2).map fun p6 =>
                  .roomsResponse ⟨p1.1, p2.1, p3.1, p4.1, p5.1, p6.1⟩
    else none

/-! ### Client receive budget (spacer client, Client.do / uds.ReceiveWithFds) -/

/-- Client.do receives every response with `c.conn.ReceiveWithFds(buffer, 3)`,
and Conn.ReceiveWithFds sizes its ancillary-data buffer with
`unix.CmsgSpace(maxfds*4)`: at most 3 out-of-band fds are admitted per
received message. -/
def clientMaxResponseFds : Nat := 3

/-! ### Helper notions used by the theorems -/

/-- Whether an event marks a per-type unit of work starting or completing. -/
def isUnitEvent : Event → Bool
  | .unitStart _ => true
  | .unitEnd _ => true
  | _ => false

/-- The namespace types RoomsResponse.DecodeFds has a wanted field for
(the six cases of its switch statement). -/
def roomWanted (t : Nat) : Bool :=
  t = CLONE_NEWCGROUP || t = CLONE_NEWIPC || t = CLONE_NEWNS ||
  t = CLONE_NEWNET || t = CLONE_NEWTIME || t = CLONE_NEWUTS

/-- The namespace types SubspaceResponse.DecodeFds has a wanted field for. -/
def subspaceWanted (t : Nat) : Bool :=
  t = CLONE_NEWUSER || t = CLONE_NEWPID

/-- The last element of the list satisfying `tf · = flag`, or the default
when none does: the value a DecodeFds field dispatch loop leaves behind. -/
def lastMatchD (tf : Int → Nat) (flag : Nat) (fds : List Int) (dflt : Int) : Int :=
  fds.foldl (fun a fd => if tf fd = flag then fd else a) dflt

/-- Comma-join of error-message parts, mirroring Room's errmsg aggregation. -/
def joinComma : List String → String
  | [] => ""
  | [s] => s
  | s :: t :: rest => s ++ "," ++ joinComma (t :: rest)

/-- One aggregated error-message part of Room: failing type name, colon,
failure reason. -/
def errPart (p : Nat × String) : String := Name p.1 ++ ":" ++ p.2

/-- The (type flag, failure reason) pairs of the requested types whose unit
of work fails, in the order Room processes the types. -/
def failList (o : FailOracle) (spaces : Nat) (fs : List NsField) : List (Nat × String) :=
  (fs.filter (fun f => spaces &&& f.flag != 0)).filterMap
    (fun f => (unitErr o f.flag).map (fun e => (f.flag, e)))

/-- An all-success failure oracle for concrete runs. -/
def okFailOracle : FailOracle := ⟨fun _ => none, none, fun _ => none, none, fun _ => none⟩

/-- An all-success Subspace step oracle for concrete runs. -/
def okSubspaceOracle : SubspaceOracle := ⟨none, none, none, none, none, none, none⟩

/-- A Subspace oracle where only opening the new PID namespace fails. -/
def pidFailOracle : SubspaceOracle := ⟨none, none, none, none, none, none, some "boom"⟩

/-! ### Theorems settling the claims -/

/-- C9: calling SubspaceResponse.DecodeFds with an empty handle list panics
(it unconditionally indexes `fds[0]` to fill the Conn field, embedded as the
`none` result) instead of returning with all fields at their absent values:
the decode operation is not total over received handle lists. -/
theorem subspace_decode_empty_panics (s : SubspaceResponse) (tf : Int → Nat) :
    SubspaceResponse.DecodeFds s tf [] = none := rfl

/-- C8: the Broker Client admits at most 3 out-of-band handles per received
message, but the valid RoomsRequest selecting all six flat types yields (when
every unit succeeds) a RoomsResponse whose EncodeFds moves 6 handles into the
auxiliary handle set: more handles accompany the response than the client's
per-message receive limit. -/
theorem rooms_exceed_client_receive_budget :
    (validSpaces &&& (UINT64MAX ^^^ validSpaces) = 0 ∧
      validSpaces &&& validSpaces ≠ 0) ∧
    (Room okFailOracle ⟨validSpaces⟩ ⟨3, []⟩).1 = .rooms ⟨4, 6, 8, 10, 12, 14⟩ ∧
    (RoomsResponse.EncodeFds ⟨4, 6, 8, 10, 12, 14⟩).1.length = 6 ∧
    clientMaxResponseFds = 3 ∧ 6 > clientMaxResponseFds :=
  ⟨by decide, rfl, rfl, rfl, by decide⟩

/-- C7 counterexample: for the request selecting cgroup and ipc (with every
kernel operation succeeding), ipc's unit of work starts only after cgroup's
unit has completed — its execution is ordered after another unit's completion,
contradicting the claim that no unit's execution is ordered after another
unit's completion. -/
theorem room_units_not_concurrent_counterexample :
    ((Room okFailOracle ⟨CLONE_NEWCGROUP ||| CLONE_NEWIPC⟩ ⟨3, []⟩).2.2.filter
        isUnitEvent)
      = [.unitStart CLONE_NEWCGROUP, .unitEnd CLONE_NEWCGROUP,
         .unitStart CLONE_NEWIPC, .unitEnd CLONE_NEWIPC] ∧
    ((Room okFailOracle ⟨CLONE_NEWCGROUP ||| CLONE_NEWIPC⟩ ⟨3, []⟩).2.2.filter
        isUnitEvent)[1]? = some (.unitEnd CLONE_NEWCGROUP) ∧
    ((Room okFailOracle ⟨CLONE_NEWCGROUP ||| CLONE_NEWIPC⟩ ⟨3, []⟩).2.2.filter
        isUnitEvent)[2]? = some (.unitStart CLONE_NEWIPC) := by
  refine ⟨rfl, rfl, rfl⟩

/-- C4 counterexample: decoding a SubspaceResponse handle set whose first
handle reports the cgroup namespace type — matching no wanted field of that
shape — stores that handle into the Conn field without any type query and
does not close it, contradicting the claim that every handle is redistributed
by its kernel-reported type and every non-matching handle is closed with the
field left absent. -/
theorem subspace_decode_first_fd_unqueried_counterexample :
    SubspaceResponse.DecodeFds ⟨0, 0, 0⟩ (fun _ => CLONE_NEWCGROUP) [5]
      = some (⟨5, 0, 0⟩, []) ∧
    subspaceWanted CLONE_NEWCGROUP = false := by
  refine ⟨rfl, by decide⟩

/-- C1: a SubspaceRequest whose selection is empty or contains any flag
outside the user/pid set, and a RoomsRequest whose selection is empty or
contains any flag outside the six flat types, are answered with an
ErrorResponse before any kernel operation is performed or handle created:
the event trace is empty and the kernel state unchanged. -/
theorem invalid_requests_rejected_before_kernel_ops
    (so : SubspaceOracle) (ro : FailOracle) (sreq : SubspaceRequest)
    (rreq : RoomsRequest) (ks kr : NsKernel)
    (hs : sreq.Spaces = 0 ∨
      sreq.Spaces &&& (UINT64MAX ^^^ (CLONE_NEWUSER ||| CLONE_NEWPID)) ≠ 0)
    (hr : rreq.Spaces = 0 ∨ rreq.Spaces &&& (UINT64MAX ^^^ validSpaces) ≠ 0) :
    (∃ e, Subspace so sreq ks = (.error e, ks, [])) ∧
    (∃ e, Room ro rreq kr = (.error e, kr, [])) := by
  constructor
  · rcases hs with h | h
    · exact ⟨⟨"no space requested"⟩, by simp [Subspace, h]⟩
    · exact ⟨⟨"out of space"⟩, by simp [Subspace, h]⟩
  · rcases hr with h | h
    · exact ⟨⟨"no space requested"⟩, by simp [Room, h]⟩
    · exact ⟨⟨"out of space"⟩, by simp [Room, h]⟩

/-- Witness for C1: the empty SubspaceRequest and the RoomsRequest asking for
the (hierarchical) user namespace are both rejected with no kernel events. -/
theorem invalid_requests_rejected_witness :
    ((0 : Nat) = 0 ∨ (0 : Nat) &&& (UINT64MAX ^^^ (CLONE_NEWUSER ||| CLONE_NEWPID)) ≠ 0) ∧
    (CLONE_NEWUSER = 0 ∨ CLONE_NEWUSER &&& (UINT64MAX ^^^ validSpaces) ≠ 0) ∧
    ((∃ e, Subspace okSubspaceOracle ⟨0⟩ ⟨3, []⟩ = (.error e, ⟨3, []⟩, [])) ∧
      (∃ e, Room okFailOracle ⟨CLONE_NEWUSER⟩ ⟨3, []⟩ = (.error e, ⟨3, []⟩, []))) :=
  ⟨Or.inl rfl, Or.inr (by decide),
    invalid_requests_rejected_before_kernel_ops okSubspaceOracle okFailOracle
      ⟨0⟩ ⟨CLONE_NEWUSER⟩ ⟨3, []⟩ ⟨3, []⟩ (Or.inl rfl) (Or.inr (by decide))⟩

/-- C10: for the Subspace request selecting only the PID namespace, when
opening the new PID-namespace handle fails (every earlier step succeeding),
the error path executes `unix.Close(userfd)` on the never-assigned zero
user-handle field: file descriptor 0 is closed even though a value ≤ 0 never
denotes a live handle owned by the request. -/
theorem subspace_pid_only_failure_closes_fd_zero
    (o : SubspaceOracle) (k : NsKernel) (e : String)
    (h1 : o.newPair = none) (h2 : o.dupontFile = none) (h3 : o.start = none)
    (h4 : o.dupondFile = none) (h5 : o.dup = none) (hp : o.openPidNs = some e) :
    (Subspace o ⟨CLONE_NEWPID⟩ k).1
      = .error ⟨"failed to determine new PID namespace, reason: " ++ e⟩ ∧
    Event.close 0 ∈ (Subspace o ⟨CLONE_NEWPID⟩ k).2.2 := by
  have c1 : CLONE_NEWPID &&& (UINT64MAX ^^^ (CLONE_NEWUSER ||| CLONE_NEWPID)) = 0 := by decide
  have c2 : CLONE_NEWPID &&& (CLONE_NEWUSER ||| CLONE_NEWPID) ≠ 0 := by decide
  have c3 : CLONE_NEWPID &&& CLONE_NEWUSER = 0 := by decide
  have c4 : CLONE_NEWPID &&& CLONE_NEWPID ≠ 0 := by decide
  have c5 : CLONE_NEWPID ≠ 0 := by decide
  simp [Subspace, subspacePidPart, h1, h2, h3, h4, h5, hp, c1, c2, c3, c4, c5]

/-- Witness for C10: a concrete run with only the PID-namespace open failing
does close file descriptor 0. -/
theorem subspace_pid_only_failure_closes_fd_zero_witness :
    pidFailOracle.newPair = none ∧ pidFailOracle.dupontFile = none ∧
    pidFailOracle.start = none ∧ pidFailOracle.dupondFile = none ∧
    pidFailOracle.dup = none ∧ pidFailOracle.openPidNs = some "boom" ∧
    ((Subspace pidFailOracle ⟨CLONE_NEWPID⟩ ⟨3, []⟩).1
        = .error ⟨"failed to determine new PID namespace, reason: " ++ "boom"⟩ ∧
      Event.close 0 ∈ (Subspace pidFailOracle ⟨CLONE_NEWPID⟩ ⟨3, []⟩).2.2) :=
  ⟨rfl, rfl, rfl, rfl, rfl, rfl,
    subspace_pid_only_failure_closes_fd_zero pidFailOracle ⟨3, []⟩ "boom"
      rfl rfl rfl rfl rfl rfl⟩

/-! ### Characterization of the DecodeFds loops -/

lemma lastMatchD_cons (tf : Int → Nat) (flag : Nat) (fd : Int) (rest : List Int) (d : Int) :
    lastMatchD tf flag (fd :: rest) d
      = lastMatchD tf flag rest (if tf fd = flag then fd else d) := rfl

lemma roomsDecodeStep_get (tf : Int → Nat) (acc : RoomsResponse × List Int)
    (fd : Int) (f : NsField) :
    ((roomsDecodeStep tf acc fd).1).get f
      = if tf fd = f.flag then fd else acc.1.get f := by
  rcases acc with ⟨s, cs⟩
  cases f <;>
    simp only [roomsDecodeStep, NsField.flag] <;>
    split_ifs <;>
    simp_all [RoomsResponse.get, CLONE_NEWCGROUP, CLONE_NEWIPC, CLONE_NEWNS,
      CLONE_NEWNET, CLONE_NEWTIME, CLONE_NEWUTS]

lemma roomsDecodeStep_closed (tf : Int → Nat) (acc : RoomsResponse × List Int) (fd : Int) :
    (roomsDecodeStep tf acc fd).2
      = if roomWanted (tf fd) then acc.2 else acc.2 ++ [fd] := by
  rcases acc with ⟨s, cs⟩
  simp only [roomsDecodeStep, roomWanted]
  split_ifs <;> simp_all

lemma roomsDecodeFold_get (tf : Int → Nat) (fds : List Int) :
    ∀ (s : RoomsResponse) (cs : List Int) (f : NsField),
      ((fds.foldl (roomsDecodeStep tf) (s, cs)).1).get f
        = lastMatchD tf f.flag fds (s.get f) := by
  induction fds with
  | nil => intro s cs f; simp [lastMatchD]
  | cons fd rest ih =>
    intro s cs f
    rw [List.foldl_cons, lastMatchD_cons]
    have hstep : roomsDecodeStep tf (s, cs) fd
        = ((roomsDecodeStep tf (s, cs) fd).1, (roomsDecodeStep tf (s, cs) fd).2) := rfl
    rw [hstep, ih, roomsDecodeStep_get]

lemma roomsDecodeFold_closed (tf : Int → Nat) (fds : List Int) :
    ∀ (s : RoomsResponse) (cs : List Int),
      (fds.foldl (roomsDecodeStep tf) (s, cs)).2
        = cs ++ fds.filter (fun fd => !roomWanted (tf fd)) := by
  induction fds with
  | nil => intro s cs; simp
  | cons fd rest ih =>
    intro s cs
    rw [List.foldl_cons]
    have hstep : roomsDecodeStep tf (s, cs) fd
        = ((roomsDecodeStep tf (s, cs) fd).1, (roomsDecodeStep tf (s, cs) fd).2) := rfl
    rw [hstep, ih, roomsDecodeStep_closed]
    by_cases h : roomWanted (tf fd) <;> simp [h]

lemma subspaceDecodeFold (tf : Int → Nat) (rest : List Int) :
    ∀ (s : SubspaceResponse) (cs : List Int),
      rest.foldl (subspaceDecodeStep tf) (s, cs)
        = (⟨s.Conn, lastMatchD tf CLONE_NEWUSER rest s.User,
              lastMatchD tf CLONE_NEWPID rest s.PID⟩,
            cs ++ rest.filter (fun fd => !subspaceWanted (tf fd))) := by
  induction rest with
  | nil => intro s cs; simp [lastMatchD]
  | cons fd r ih =>
    intro s cs
    have hne : CLONE_NEWUSER ≠ CLONE_NEWPID := by decide
    rw [List.foldl_cons]
    by_cases h1 : tf fd = CLONE_NEWUSER
    · have hstep : subspaceDecodeStep tf (s, cs) fd = ({ s with User := fd }, cs) := by
        simp [subspaceDecodeStep, h1]
      rw [hstep, ih]
      have h2 : tf fd ≠ CLONE_NEWPID := by
        rw [h1]; decide
      simp [lastMatchD_cons, h1, h2, hne, subspaceWanted]
    · by_cases h2 : tf fd = CLONE_NEWPID
      · have hstep : subspaceDecodeStep tf (s, cs) fd = ({ s with PID := fd }, cs) := by
          simp [subspaceDecodeStep, h1, h2, hne.symm]
        rw [hstep, ih]
        simp [lastMatchD_cons, h1, h2, hne.symm, subspaceWanted]
      · have hstep : subspaceDecodeStep tf (s, cs) fd = (s, cs ++ [fd]) := by
          simp [subspaceDecodeStep, h1, h2]
        rw [hstep, ih]
        simp [lastMatchD_cons, h1, h2, subspaceWanted]

/-- C4 amended: decoding redistributes received handles by querying each
handle's kernel-reported namespace type against the shape's wanted set, closes
every non-matching handle and leaves unmatched fields at their prior (absent)
value — for every handle of a RoomsResponse, but only for the handles after
the first of a SubspaceResponse: its first handle is assigned to the Conn
field unconditionally, without a type query, and is never closed. -/
theorem decode_fds_redistributes_by_type (tf : Int → Nat) :
    (∀ (s : RoomsResponse) (fds : List Int),
      (RoomsResponse.DecodeFds s tf fds).2
          = fds.filter (fun fd => !roomWanted (tf fd)) ∧
      ∀ f : NsField, ((RoomsResponse.DecodeFds s tf fds).1).get f
          = lastMatchD tf f.flag fds (s.get f)) ∧
    (∀ (s : SubspaceResponse) (fd0 : Int) (rest : List Int),
      SubspaceResponse.DecodeFds s tf (fd0 :: rest)
        = some (⟨fd0, lastMatchD tf CLONE_NEWUSER rest s.User,
            lastMatchD tf CLONE_NEWPID rest s.PID⟩,
            rest.filter (fun fd => !subspaceWanted (tf fd)))) := by
  refine ⟨fun s fds => ⟨?_, fun f => ?_⟩, fun s fd0 rest => ?_⟩
  · simpa using roomsDecodeFold_closed tf fds s []
  · exact roomsDecodeFold_get tf fds s [] f
  · show some (rest.foldl (subspaceDecodeStep tf) ({ s with Conn := fd0 }, [])) = _
    rw [subspaceDecodeFold]
    simp

/-! ### goInAndOut: reverse-order restoration -/

/-- The original namespaces goInAndOut records during attachment: for each
passed fd, the caller's current namespace of that fd's type, in attachment
order. -/
def recordedNamespaces (o : ExecOracle) (fds : List Int) : List Int :=
  fds.map (fun fd => o.current (o.typeOf fd))

lemma attachAll_ok (o : ExecOracle) (fds : List Int)
    (h : ∀ fd ∈ fds, o.setnsOk fd (o.typeOf fd) = true) :
    ∀ recorded, attachAll o recorded fds
      = .ok (recorded ++ fds.map (fun fd => o.current (o.typeOf fd))) := by
  induction fds with
  | nil => intro recorded; simp [attachAll]
  | cons fd rest ih =>
    intro recorded
    have hfd := h fd (by simp)
    rw [attachAll, if_pos hfd, ih (fun x hx => h x (by simp [hx]))]
    simp

lemma restoreAll_ok (o : ExecOracle) (l : List Int)
    (h : ∀ fd ∈ l, o.setnsOk fd 0 = true) :
    restoreAll o l = (l, none) := by
  induction l with
  | nil => simp [restoreAll]
  | cons fd rest ih =>
    rw [restoreAll, if_pos (h fd (by simp)), ih (fun x hx => h x (by simp [hx]))]

lemma restoreAll_fail (o : ExecOracle) (l₁ : List Int) (fd : Int) (l₂ : List Int)
    (h1 : ∀ x ∈ l₁, o.setnsOk x 0 = true) (h2 : o.setnsOk fd 0 = false) :
    restoreAll o (l₁ ++ fd :: l₂) = (l₁ ++ [fd], some (o.typeOf fd)) := by
  induction l₁ with
  | nil => simp [restoreAll, h2]
  | cons x r ih =>
    rw [List.cons_append, restoreAll, if_pos (h1 x (by simp)),
      ih (fun y hy => h1 y (by simp [hy]))]
    simp

/-- C6: in the non-mount path, once attachment succeeded and the caller logic
has returned, the recorded original namespaces are restored by Setns calls in
exactly the reverse order of attachment; a restoration failure aborts with a
diagnostic identifying the failing namespace's type and stops there; and the
OS-level thread's pin is released exactly when every restoration succeeded —
on any failure the thread is never unlocked for reuse. -/
theorem goInAndOut_reverse_restore (o : ExecOracle) (fds : List Int)
    (hattach : ∀ fd ∈ fds, o.setnsOk fd (o.typeOf fd) = true) :
    (goInAndOut o fds).ranFn = true ∧
    ((goInAndOut o fds).unlocked = true ↔ (goInAndOut o fds).outcome = .ok) ∧
    ((∀ fd ∈ recordedNamespaces o fds, o.setnsOk fd 0 = true) →
      (goInAndOut o fds).outcome = .ok ∧
      (goInAndOut o fds).restoreSetns = (recordedNamespaces o fds).reverse) ∧
    (∀ (l₁ : List Int) (fd : Int) (l₂ : List Int),
      (recordedNamespaces o fds).reverse = l₁ ++ fd :: l₂ →
      (∀ x ∈ l₁, o.setnsOk x 0 = true) → o.setnsOk fd 0 = false →
      (goInAndOut o fds).outcome = .restoreAbort (o.typeOf fd) ∧
      (goInAndOut o fds).restoreSetns = l₁ ++ [fd] ∧
      (goInAndOut o fds).unlocked = false) := by
  have hA : attachAll o [] fds = .ok (recordedNamespaces o fds) := by
    simpa [recordedNamespaces] using attachAll_ok o fds hattach []
  refine ⟨?_, ?_, ?_, ?_⟩
  · rcases hr : restoreAll o (recordedNamespaces o fds).reverse with ⟨calls, fail⟩
    cases fail <;> simp [goInAndOut, hA, hr]
  · rcases hr : restoreAll o (recordedNamespaces o fds).reverse with ⟨calls, fail⟩
    cases fail <;> simp [goInAndOut, hA, hr]
  · intro hok
    have hr := restoreAll_ok o (recordedNamespaces o fds).reverse
      (fun fd hfd => hok fd (by simpa using hfd))
    simp [goInAndOut, hA, hr]
  · intro l₁ fd l₂ hdecomp h1 h2
    have hr := restoreAll_fail o l₁ fd l₂ h1 h2
    rw [← hdecomp] at hr
    simp [goInAndOut, hA, hr]

/-- A concrete execution oracle: every fd reports the net namespace type, the
current net namespace is fd 7, and every Setns succeeds. -/
def execOracleW : ExecOracle := ⟨fun _ => CLONE_NEWNET, fun _ => 7, fun _ _ => true⟩

/-- Witness for C6: a concrete all-successful run restores both recorded
namespaces in reverse order and releases the pin. -/
theorem goInAndOut_reverse_restore_witness :
    (∀ fd ∈ [5, 9], execOracleW.setnsOk fd (execOracleW.typeOf fd) = true) ∧
    ((goInAndOut execOracleW [5, 9]).ranFn = true ∧
      ((goInAndOut execOracleW [5, 9]).unlocked = true ↔
        (goInAndOut execOracleW [5, 9]).outcome = .ok) ∧
      ((∀ fd ∈ recordedNamespaces execOracleW [5, 9], execOracleW.setnsOk fd 0 = true) →
        (goInAndOut execOracleW [5, 9]).outcome = .ok ∧
        (goInAndOut execOracleW [5, 9]).restoreSetns
          = (recordedNamespaces execOracleW [5, 9]).reverse) ∧
      (∀ (l₁ : List Int) (fd : Int) (l₂ : List Int),
        (recordedNamespaces execOracleW [5, 9]).reverse = l₁ ++ fd :: l₂ →
        (∀ x ∈ l₁, execOracleW.setnsOk x 0 = true) → execOracleW.setnsOk fd 0 = false →
        (goInAndOut execOracleW [5, 9]).outcome = .restoreAbort (execOracleW.typeOf fd) ∧
        (goInAndOut execOracleW [5, 9]).restoreSetns = l₁ ++ [fd] ∧
        (goInAndOut execOracleW [5, 9]).unlocked = false)) :=
  ⟨by decide, goInAndOut_reverse_restore execOracleW [5, 9] (by decide)⟩

/-! ### Characterization of newNamespace runs -/

lemma newNamespace_no_unit_events (o : FailOracle) (typ : Nat) (k : NsKernel) :
    ((newNamespace o typ k).2.2).filter isUnitEvent = [] := by
  rcases hc : o.openCur typ with _ | e1
  · rcases hfs : (if typ = CLONE_NEWNS then o.unshareFs else none) with _ | e2
    · rcases hu : o.unshare typ with _ | e3
      · rcases hm : (if typ = CLONE_NEWNS then o.mountPrivate else none) with _ | e4
        · rcases hn : o.openNew typ with _ | e5
          · simp only [newNamespace, hc, hfs, hu, hm, hn, NsKernel.alloc]
            split_ifs <;> simp [isUnitEvent]
          · simp only [newNamespace, hc, hfs, hu, hm, hn, NsKernel.alloc]
            split_ifs <;> simp [isUnitEvent]
        · simp only [newNamespace, hc, hfs, hu, hm, NsKernel.alloc]
          split_ifs <;> simp [isUnitEvent]
      · simp only [newNamespace, hc, hfs, hu, NsKernel.alloc]
        split_ifs <;> simp [isUnitEvent]
    · simp only [newNamespace, hc, hfs, NsKernel.alloc]
      simp [isUnitEvent]
  · simp only [newNamespace, hc]
    rfl

lemma newNamespace_success_parts (o : FailOracle) (typ : Nat) (k : NsKernel)
    (h : unitErr o typ = none) :
    (newNamespace o typ k).1 = .ok (k.nextFd + 1) ∧
    (newNamespace o typ k).2.1
      = ⟨k.nextFd + 2, (k.nextFd + 1, typ) :: (k.nextFd, typ) :: k.fdTypes⟩ := by
  rcases hc : o.openCur typ with _ | e1
  case some => simp [unitErr, hc] at h
  rcases hfs : (if typ = CLONE_NEWNS then o.unshareFs else none) with _ | e2
  case some => simp [unitErr, hc, hfs] at h
  rcases hu : o.unshare typ with _ | e3
  case some => simp [unitErr, hc, hfs, hu] at h
  rcases hm : (if typ = CLONE_NEWNS then o.mountPrivate else none) with _ | e4
  case some => simp [unitErr, hc, hfs, hu, hm] at h
  rcases hn : o.openNew typ with _ | e5
  case some => simp [unitErr, hc, hfs, hu, hm, hn] at h
  refine ⟨by simp [newNamespace, hc, hfs, hu, hm, hn, NsKernel.alloc], ?_⟩
  simp [newNamespace, hc, hfs, hu, hm, hn, NsKernel.alloc]
  omega

lemma newNamespace_error_parts (o : FailOracle) (typ : Nat) (k : NsKernel) (e : String)
    (h : unitErr o typ = some e) :
    (newNamespace o typ k).1 = .error e ∧
    ((newNamespace o typ k).2.1 = k ∨
      (newNamespace o typ k).2.1 = ⟨k.nextFd + 1, (k.nextFd, typ) :: k.fdTypes⟩) := by
  rcases hc : o.openCur typ with _ | e1
  · rcases hfs : (if typ = CLONE_NEWNS then o.unshareFs else none) with _ | e2
    · rcases hu : o.unshare typ with _ | e3
      · rcases hm : (if typ = CLONE_NEWNS then o.mountPrivate else none) with _ | e4
        · rcases hn : o.openNew typ with _ | e5
          · simp [unitErr, hc, hfs, hu, hm, hn] at h
          · have he : e5 = e := by simpa [unitErr, hc, hfs, hu, hm, hn] using h
            subst he
            exact ⟨by simp [newNamespace, hc, hfs, hu, hm, hn, NsKernel.alloc],
              Or.inr (by simp [newNamespace, hc, hfs, hu, hm, hn, NsKernel.alloc])⟩
        · have he : e4 = e := by simpa [unitErr, hc, hfs, hu, hm] using h
          subst he
          exact ⟨by simp [newNamespace, hc, hfs, hu, hm, NsKernel.alloc],
            Or.inr (by simp [newNamespace, hc, hfs, hu, hm, NsKernel.alloc])⟩
      · have he : e3 = e := by simpa [unitErr, hc, hfs, hu] using h
        subst he
        exact ⟨by simp [newNamespace, hc, hfs, hu, NsKernel.alloc],
          Or.inr (by simp [newNamespace, hc, hfs, hu, NsKernel.alloc])⟩
    · have he : e2 = e := by simpa [unitErr, hc, hfs] using h
      subst he
      exact ⟨by simp [newNamespace, hc, hfs, NsKernel.alloc],
        Or.inr (by simp [newNamespace, hc, hfs, NsKernel.alloc])⟩
  · have he : e1 = e := by simpa [unitErr, hc] using h
    subst he
    exact ⟨by simp [newNamespace, hc], Or.inl (by simp [newNamespace, hc])⟩

/-! ### RoomsResponse field update and kernel lookup lemmas -/

lemma get_setf_same (r : RoomsResponse) (f : NsField) (v : Int) :
    (r.setf f v).get f = v := by
  cases f <;> rfl

lemma get_setf_ne (r : RoomsResponse) (f g : NsField) (v : Int) (h : f ≠ g) :
    (r.setf f v).get g = r.get g := by
  cases f <;> cases g <;> simp_all [RoomsResponse.setf, RoomsResponse.get]

lemma lookup_prepend_gt (l : List (Int × Nat)) (a fd : Int) (t : Nat) (h : fd < a) :
    ((a, t) :: l).lookup fd = l.lookup fd := by
  have hne : (fd == a) = false := beq_eq_false_iff_ne.mpr (by omega)
  simp [List.lookup, hne]

/-! ### The Room loop invariant -/

/-- Invariant of Room's per-type loop after processing the fields in `done`:
the kernel is well-formed with a positive allocation counter; every processed,
requested field whose unit succeeded holds a positive fd, still below the
allocation counter, whose kernel-reported type is the field's type; every
other field is still zero; and the aggregated error message is the addErr-fold
over the failures of the processed requested fields. -/
def RoomInv (o : FailOracle) (spaces : Nat) (done : List NsField) (acc : RoomAcc) : Prop :=
  KWF acc.k ∧ 0 < acc.k.nextFd ∧
  (∀ f ∈ done, spaces &&& f.flag ≠ 0 → unitErr o f.flag = none →
    0 < acc.resp.get f ∧ acc.resp.get f < acc.k.nextFd ∧
    acc.k.typeOf (acc.resp.get f) = some f.flag) ∧
  (∀ f : NsField, (f ∉ done ∨ spaces &&& f.flag = 0 ∨ unitErr o f.flag ≠ none) →
    acc.resp.get f = 0) ∧
  acc.errmsg = (failList o spaces done).foldl (fun m p => addErr m p.1 p.2) ""

lemma roomUnshare_inv (o : FailOracle) (spaces : Nat) (done : List NsField)
    (f : NsField) (acc : RoomAcc) (hinv : RoomInv o spaces done acc) (hnew : f ∉ done) :
    RoomInv o spaces (done ++ [f]) (roomUnshare o spaces f acc) := by
  obtain ⟨hkwf, hpos, hok, hzero, herr⟩ := hinv
  by_cases hreq : spaces &&& f.flag = 0
  · rw [roomUnshare, if_pos hreq]
    refine ⟨hkwf, hpos, ?_, ?_, ?_⟩
    · intro g hg hgreq hgerr
      rcases List.mem_append.mp hg with hg | hg
      · exact hok g hg hgreq hgerr
      · have hgf : g = f := by simpa using hg
        subst hgf
        exact absurd hreq hgreq
    · intro g hg
      rcases hg with hg | hg | hg
      · exact hzero g (Or.inl fun hgd => hg (List.mem_append.mpr (Or.inl hgd)))
      · exact hzero g (Or.inr (Or.inl hg))
      · exact hzero g (Or.inr (Or.inr hg))
    · rw [herr]
      congr 1
      simp [failList, List.filter_append, hreq]
  · rcases hcase : unitErr o f.flag with _ | e
    · -- the unit of work succeeds
      rcases hnn : newNamespace o f.flag acc.k with ⟨res, knew, ev⟩
      have hparts := newNamespace_success_parts o f.flag acc.k hcase
      rw [hnn] at hparts
      obtain ⟨hres, hknew⟩ := hparts
      dsimp only at hres hknew
      subst hres
      subst hknew
      simp only [roomUnshare, if_neg hreq, hnn]
      refine ⟨?_, ?_, ?_, ?_, ?_⟩ <;> dsimp only
      · intro p hp
        dsimp only at hp
        simp only [List.mem_cons] at hp
        dsimp only
        rcases hp with rfl | rfl | hp
        · omega
        · omega
        · have := hkwf p hp
          omega
      · omega
      · intro g hg hgreq hgerr
        rcases List.mem_append.mp hg with hg | hg
        · have hfg : f ≠ g := fun hh => hnew (hh ▸ hg)
          obtain ⟨h1, h2, h3⟩ := hok g hg hgreq hgerr
          rw [get_setf_ne _ _ _ _ hfg]
          refine ⟨h1, by omega, ?_⟩
          simp only [NsKernel.typeOf] at h3 ⊢
          rw [lookup_prepend_gt _ _ _ _ (by omega), lookup_prepend_gt _ _ _ _ h2]
          exact h3
        · have hgf : g = f := by simpa using hg
          subst hgf
          rw [get_setf_same]
          refine ⟨by omega, by omega, ?_⟩
          simp only [NsKernel.typeOf]
          simp [List.lookup]
      · intro g hg
        have hfg : f ≠ g := by
          intro hh
          subst hh
          rcases hg with hg | hg | hg
          · exact hg (List.mem_append.mpr (Or.inr (by simp)))
          · exact hreq hg
          · exact hg hcase
        rw [get_setf_ne _ _ _ _ hfg]
        rcases hg with hg | hg | hg
        · exact hzero g (Or.inl fun hgd => hg (List.mem_append.mpr (Or.inl hgd)))
        · exact hzero g (Or.inr (Or.inl hg))
        · exact hzero g (Or.inr (Or.inr hg))
      · rw [herr]
        congr 1
        have hf : (spaces &&& f.flag != 0) = true := by simpa using hreq
        simp [failList, List.filter_append, hf, hcase]
    · -- the unit of work fails with e
      rcases hnn : newNamespace o f.flag acc.k with ⟨res, knew, ev⟩
      have hparts := newNamespace_error_parts o f.flag acc.k e hcase
      rw [hnn] at hparts
      obtain ⟨hres, hknew⟩ := hparts
      dsimp only at hres hknew
      subst hres
      have hkm : KWF knew ∧ acc.k.nextFd ≤ knew.nextFd ∧
          (∀ fd : Int, fd < acc.k.nextFd → knew.typeOf fd = acc.k.typeOf fd) := by
        rcases hknew with hknew | hknew
        · subst hknew
          exact ⟨hkwf, le_refl _, fun fd _ => rfl⟩
        · subst hknew
          refine ⟨?_, by dsimp only; omega, ?_⟩
          · intro p hp
            dsimp only at hp ⊢
            simp only [List.mem_cons] at hp
            rcases hp with rfl | hp
            · omega
            · have := hkwf p hp
              omega
          · intro fd hfd
            simp only [NsKernel.typeOf]
            rw [lookup_prepend_gt _ _ _ _ hfd]
      obtain ⟨hkwf', hmono, hpres⟩ := hkm
      simp only [roomUnshare, if_neg hreq, hnn]
      refine ⟨hkwf', ?_, ?_, ?_, ?_⟩ <;> dsimp only
      · omega
      · intro g hg hgreq hgerr
        rcases List.mem_append.mp hg with hg | hg
        · obtain ⟨h1, h2, h3⟩ := hok g hg hgreq hgerr
          exact ⟨h1, by omega, by rw [hpres _ h2]; exact h3⟩
        · have hgf : g = f := by simpa using hg
          subst hgf
          rw [hcase] at hgerr
          exact absurd hgerr (by simp)
      · intro g hg
        rcases hg with hg | hg | hg
        · exact hzero g (Or.inl fun hgd => hg (List.mem_append.mpr (Or.inl hgd)))
        · exact hzero g (Or.inr (Or.inl hg))
        · exact hzero g (Or.inr (Or.inr hg))
      · rw [herr]
        have hf : (spaces &&& f.flag != 0) = true := by simpa using hreq
        have hsplit : failList o spaces (done ++ [f])
            = failList o spaces done ++ [(f.flag, e)] := by
          simp [failList, List.filter_append, hf, hcase]
        rw [hsplit, List.foldl_append]
        rfl

lemma roomFold_inv (o : FailOracle) (spaces : Nat) :
    ∀ (fs done : List NsField) (acc : RoomAcc),
      RoomInv o spaces done acc → (∀ f ∈ fs, f ∉ done) → fs.Nodup →
      RoomInv o spaces (done ++ fs)
        (fs.foldl (fun a f => roomUnshare o spaces f a) acc) := by
  intro fs
  induction fs with
  | nil => intro done acc hinv _ _; simpa using hinv
  | cons f rest ih =>
    intro done acc hinv hdisj hnodup
    rw [List.foldl_cons]
    have hstep := roomUnshare_inv o spaces done f acc hinv (hdisj f (by simp))
    have hrest := ih (done ++ [f]) _ hstep ?_ (List.Nodup.of_cons hnodup)
    · simpa using hrest
    · intro g hg
      intro hmem
      rcases List.mem_append.mp hmem with hmem | hmem
      · exact hdisj g (by simp [hg]) hmem
      · have : g = f := by simpa using hmem
        subst this
        exact (List.nodup_cons.mp hnodup).1 hg

lemma roomInv_init (o : FailOracle) (spaces : Nat) (k : NsKernel)
    (hk : KWF k) (hpos : 0 < k.nextFd) :
    RoomInv o spaces [] ⟨⟨0, 0, 0, 0, 0, 0⟩, "", k, []⟩ := by
  refine ⟨hk, hpos, by simp, ?_, rfl⟩
  intro f _
  cases f <;> rfl

/-- Each NsField occurs in roomOrder. -/
lemma mem_roomOrder (f : NsField) : f ∈ roomOrder := by
  cases f <;> simp [roomOrder]

lemma roomAccFinal_inv (o : FailOracle) (req : RoomsRequest) (k : NsKernel)
    (hk : KWF k) (hpos : 0 < k.nextFd) :
    RoomInv o req.Spaces roomOrder (roomAccFinal o req k) := by
  have := roomFold_inv o req.Spaces roomOrder [] ⟨⟨0, 0, 0, 0, 0, 0⟩, "", k, []⟩
    (roomInv_init o req.Spaces k hk hpos) (by simp) (by decide)
  simpa [roomAccFinal] using this

/-! ### Unit-event trace structure of Room -/

lemma roomUnshare_trace (o : FailOracle) (spaces : Nat) (f : NsField) (acc : RoomAcc) :
    (roomUnshare o spaces f acc).trace.filter isUnitEvent
      = acc.trace.filter isUnitEvent ++
        (if spaces &&& f.flag = 0 then []
          else [Event.unitStart f.flag, Event.unitEnd f.flag]) := by
  by_cases h : spaces &&& f.flag = 0
  · simp [roomUnshare, h]
  · rcases hnn : newNamespace o f.flag acc.k with ⟨res, knew, ev⟩
    have hev : ev.filter isUnitEvent = [] := by
      have hh := newNamespace_no_unit_events o f.flag acc.k
      rw [hnn] at hh
      exact hh
    cases res <;>
      simp [roomUnshare, h, hnn, List.filter_append, hev, isUnitEvent]

lemma roomFold_trace (o : FailOracle) (spaces : Nat) :
    ∀ (fs : List NsField) (acc : RoomAcc),
      ((fs.foldl (fun a f => roomUnshare o spaces f a) acc).trace).filter isUnitEvent
        = acc.trace.filter isUnitEvent
          ++ (fs.filter (fun f => spaces &&& f.flag != 0)).flatMap
              (fun f => [Event.unitStart f.flag, Event.unitEnd f.flag]) := by
  intro fs
  induction fs with
  | nil => intro acc; simp
  | cons f rest ih =>
    intro acc
    rw [List.foldl_cons, ih, roomUnshare_trace]
    by_cases h : spaces &&& f.flag = 0 <;> simp [h, List.append_assoc]

lemma roomCloseEvents_no_unit (resp : RoomsResponse) :
    (roomCloseEvents resp).filter isUnitEvent = [] := by
  rw [roomCloseEvents, List.filter_map]
  simp [isUnitEvent, Function.comp]

/-- Room reduced on a valid request: the validation gates pass and the result
is determined by the final loop accumulator. -/
lemma room_eq_of_valid (o : FailOracle) (req : RoomsRequest) (k : NsKernel)
    (hv1 : req.Spaces &&& (UINT64MAX ^^^ validSpaces) = 0)
    (hv2 : req.Spaces &&& validSpaces ≠ 0) :
    Room o req k
      = (if (roomAccFinal o req k).errmsg ≠ "" then
          (.error ⟨(roomAccFinal o req k).errmsg⟩, (roomAccFinal o req k).k,
            (roomAccFinal o req k).trace ++ roomCloseEvents (roomAccFinal o req k).resp)
        else
          (.rooms (roomAccFinal o req k).resp, (roomAccFinal o req k).k,
            (roomAccFinal o req k).trace)) := by
  rw [Room, if_neg (not_not_intro hv1), if_neg hv2]

/-- C7 amended: the per-type units of a valid RoomsRequest run strictly
sequentially in the fixed field order (cgroup, ipc, mnt, net, time, uts): the
unit-event trace is exactly one completed start/end block per requested type,
each unit joined before the next starts. -/
theorem room_units_sequential (o : FailOracle) (req : RoomsRequest) (k : NsKernel)
    (hv1 : req.Spaces &&& (UINT64MAX ^^^ validSpaces) = 0)
    (hv2 : req.Spaces &&& validSpaces ≠ 0) :
    ((Room o req k).2.2).filter isUnitEvent
      = (roomOrder.filter (fun f => req.Spaces &&& f.flag != 0)).flatMap
          (fun f => [Event.unitStart f.flag, Event.unitEnd f.flag]) := by
  have htr : ((roomAccFinal o req k).trace).filter isUnitEvent
      = (roomOrder.filter (fun f => req.Spaces &&& f.flag != 0)).flatMap
          (fun f => [Event.unitStart f.flag, Event.unitEnd f.flag]) := by
    rw [roomAccFinal]
    rw [roomFold_trace o req.Spaces roomOrder ⟨⟨0, 0, 0, 0, 0, 0⟩, "", k, []⟩]
    simp
  rw [room_eq_of_valid o req k hv1 hv2]
  split_ifs with herr
  · simp [List.filter_append, roomCloseEvents_no_unit, htr]
  · simpa using htr

/-- Witness for C7's amended theorem: the cgroup-and-ipc request produces the
two sequential unit blocks in field order. -/
theorem room_units_sequential_witness :
    ((CLONE_NEWCGROUP ||| CLONE_NEWIPC) &&& (UINT64MAX ^^^ validSpaces) = 0 ∧
      (CLONE_NEWCGROUP ||| CLONE_NEWIPC) &&& validSpaces ≠ 0) ∧
    ((Room okFailOracle ⟨CLONE_NEWCGROUP ||| CLONE_NEWIPC⟩ ⟨3, []⟩).2.2).filter isUnitEvent
      = (roomOrder.filter
          (fun f => (CLONE_NEWCGROUP ||| CLONE_NEWIPC) &&& f.flag != 0)).flatMap
          (fun f => [Event.unitStart f.flag, Event.unitEnd f.flag]) :=
  ⟨⟨by decide, by decide⟩,
    room_units_sequential okFailOracle ⟨CLONE_NEWCGROUP ||| CLONE_NEWIPC⟩ ⟨3, []⟩
      (by decide) (by decide)⟩

/-! ### C2: all units succeed -/

/-- C2: for a valid RoomsRequest whose per-type units all succeed, Room
returns a RoomsResponse holding a positive handle exactly for the requested
types (zero for all others), and the kernel-reported type of each returned
handle is the type it was requested under. -/
theorem room_success_fills_requested (o : FailOracle) (req : RoomsRequest) (k : NsKernel)
    (hv1 : req.Spaces &&& (UINT64MAX ^^^ validSpaces) = 0)
    (hv2 : req.Spaces &&& validSpaces ≠ 0)
    (hk : KWF k) (hpos : 0 < k.nextFd)
    (hok : ∀ f : NsField, req.Spaces &&& f.flag ≠ 0 → unitErr o f.flag = none) :
    (Room o req k).1 = .rooms (roomAccFinal o req k).resp ∧
    ∀ f : NsField,
      (req.Spaces &&& f.flag ≠ 0 →
        0 < (roomAccFinal o req k).resp.get f ∧
        (Room o req k).2.1.typeOf ((roomAccFinal o req k).resp.get f) = some f.flag) ∧
      (req.Spaces &&& f.flag = 0 → (roomAccFinal o req k).resp.get f = 0) := by
  obtain ⟨hkwf, hpos', hfields, hzero, herrmsg⟩ := roomAccFinal_inv o req k hk hpos
  have hfl : failList o req.Spaces roomOrder = [] := by
    rw [failList, List.filterMap_eq_nil_iff]
    intro f hf
    obtain ⟨_, hbool⟩ := List.mem_filter.mp hf
    have hreq : req.Spaces &&& f.flag ≠ 0 := by simpa using hbool
    simp [hok f hreq]
  have hmsg : (roomAccFinal o req k).errmsg = "" := by rw [herrmsg, hfl]; rfl
  have hroom : Room o req k
      = (.rooms (roomAccFinal o req k).resp, (roomAccFinal o req k).k,
          (roomAccFinal o req k).trace) := by
    rw [room_eq_of_valid o req k hv1 hv2, if_neg (not_not_intro hmsg)]
  refine ⟨by rw [hroom], fun f => ⟨fun hreq => ?_, fun hnreq => ?_⟩⟩
  · obtain ⟨h1, _, h3⟩ := hfields f (mem_roomOrder f) hreq (hok f hreq)
    exact ⟨h1, by rw [hroom]; exact h3⟩
  · exact hzero f (Or.inr (Or.inl hnreq))

/-- Witness for C2: the net-and-uts request against an all-success oracle. -/
theorem room_success_fills_requested_witness :
    ((CLONE_NEWNET ||| CLONE_NEWUTS) &&& (UINT64MAX ^^^ validSpaces) = 0 ∧
      (CLONE_NEWNET ||| CLONE_NEWUTS) &&& validSpaces ≠ 0 ∧
      KWF ⟨3, []⟩ ∧ (0 : Int) < (3 : Int) ∧
      (∀ f : NsField, (CLONE_NEWNET ||| CLONE_NEWUTS) &&& f.flag ≠ 0 →
        unitErr okFailOracle f.flag = none)) ∧
    ((Room okFailOracle ⟨CLONE_NEWNET ||| CLONE_NEWUTS⟩ ⟨3, []⟩).1
        = .rooms (roomAccFinal okFailOracle ⟨CLONE_NEWNET ||| CLONE_NEWUTS⟩ ⟨3, []⟩).resp ∧
      ∀ f : NsField,
        ((CLONE_NEWNET ||| CLONE_NEWUTS) &&& f.flag ≠ 0 →
          0 < (roomAccFinal okFailOracle ⟨CLONE_NEWNET ||| CLONE_NEWUTS⟩ ⟨3, []⟩).resp.get f ∧
          (Room okFailOracle ⟨CLONE_NEWNET ||| CLONE_NEWUTS⟩ ⟨3, []⟩).2.1.typeOf
              ((roomAccFinal okFailOracle ⟨CLONE_NEWNET ||| CLONE_NEWUTS⟩ ⟨3, []⟩).resp.get f)
            = some f.flag) ∧
        ((CLONE_NEWNET ||| CLONE_NEWUTS) &&& f.flag = 0 →
          (roomAccFinal okFailOracle ⟨CLONE_NEWNET ||| CLONE_NEWUTS⟩ ⟨3, []⟩).resp.get f = 0)) :=
  ⟨⟨by decide, by decide, by intro p hp; simp at hp, by decide,
      by intro f _; cases f <;> rfl⟩,
    room_success_fills_requested okFailOracle ⟨CLONE_NEWNET ||| CLONE_NEWUTS⟩ ⟨3, []⟩
      (by decide) (by decide) (by intro p hp; simp at hp) (by decide)
      (by intro f _; cases f <;> rfl)⟩

/-! ### The aggregated error message of Room's failure path -/

lemma addErr_ne_empty (m : String) (t : Nat) (e : String) : addErr m t e ≠ "" := by
  have h1 : (":" : String).length = 1 := rfl
  have h2 : ("," : String).length = 1 := rfl
  intro hh
  have h3 := congrArg String.length hh
  rw [addErr] at h3
  split_ifs at h3 <;> simp [String.length_append, h1, h2] at h3

lemma errPart_ne_empty (p : Nat × String) : errPart p ≠ "" := by
  have h1 : (":" : String).length = 1 := rfl
  intro hh
  have h2 := congrArg String.length hh
  rw [errPart] at h2
  simp [String.length_append, h1] at h2

lemma foldl_addErr_ne (l : List (Nat × String)) :
    ∀ m : String, m ≠ "" → l.foldl (fun a p => addErr a p.1 p.2) m ≠ "" := by
  induction l with
  | nil => intro m hm; simpa using hm
  | cons p rest ih =>
    intro m _
    rw [List.foldl_cons]
    exact ih _ (addErr_ne_empty _ _ _)

lemma joinComma_append_head (a b : String) (L : List String) :
    joinComma ((a ++ b) :: L) = a ++ joinComma (b :: L) := by
  cases L with
  | nil => rfl
  | cons c L' => simp [joinComma, String.append_assoc]

lemma addErr_eq_part (m : String) (hm : m ≠ "") (p : Nat × String) :
    addErr m p.1 p.2 = (m ++ ",") ++ errPart p := by
  rw [addErr, if_neg hm, errPart]
  simp [String.append_assoc]

lemma foldl_addErr_join (l : List (Nat × String)) :
    ∀ m : String, m ≠ "" →
      l.foldl (fun a p => addErr a p.1 p.2) m = joinComma (m :: l.map errPart) := by
  induction l with
  | nil => intro m _; rfl
  | cons p rest ih =>
    intro m hm
    rw [List.foldl_cons]
    show rest.foldl (fun a p => addErr a p.1 p.2) (addErr m p.1 p.2) = _
    rw [ih _ (addErr_ne_empty _ _ _), addErr_eq_part m hm p, List.map_cons,
      joinComma_append_head]
    rfl

lemma foldl_addErr_from_empty (l : List (Nat × String)) :
    l.foldl (fun a p => addErr a p.1 p.2) "" = joinComma (l.map errPart) := by
  cases l with
  | nil => rfl
  | cons p rest =>
    rw [List.foldl_cons]
    have h0 : addErr "" p.1 p.2 = errPart p := by simp [addErr, errPart]
    show rest.foldl (fun a p => addErr a p.1 p.2) (addErr "" p.1 p.2) = _
    rw [h0, foldl_addErr_join rest (errPart p) (errPart_ne_empty p)]
    rfl

lemma joinComma_infix (t : String) : ∀ l : List String, t ∈ l →
    ∃ s₁ s₂, joinComma l = s₁ ++ t ++ s₂ := by
  intro l
  induction l with
  | nil => intro h; simp at h
  | cons s rest ih =>
    intro hmem
    rcases List.mem_cons.mp hmem with rfl | hmem
    · cases rest with
      | nil => exact ⟨"", "", by simp [joinComma]⟩
      | cons u L =>
        exact ⟨"", "," ++ joinComma (u :: L), by simp [joinComma, String.append_assoc]⟩
    · obtain ⟨a, b, hab⟩ := ih hmem
      cases rest with
      | nil => simp at hmem
      | cons u L =>
        refine ⟨s ++ "," ++ a, b, ?_⟩
        simp only [joinComma, hab]
        simp [String.append_assoc]

/-! ### C3: at least one unit fails -/

/-- C3: for a valid RoomsRequest in which at least one requested type's unit
fails, Room returns a single ErrorResponse (never a partial RoomsResponse)
whose reason is the comma-join of one `name:reason` part per failing type, so
that every failing type's name and failure reason appears inside the reason
string; and every handle obtained by the types whose units succeeded is
closed. -/
theorem room_failure_unwinds_and_aggregates (o : FailOracle) (req : RoomsRequest)
    (k : NsKernel)
    (hv1 : req.Spaces &&& (UINT64MAX ^^^ validSpaces) = 0)
    (hv2 : req.Spaces &&& validSpaces ≠ 0)
    (hk : KWF k) (hpos : 0 < k.nextFd)
    (f₀ : NsField) (e₀ : String)
    (hreq₀ : req.Spaces &&& f₀.flag ≠ 0) (herr₀ : unitErr o f₀.flag = some e₀) :
    (Room o req k).1
      = .error ⟨joinComma ((failList o req.Spaces roomOrder).map errPart)⟩ ∧
    (∀ (f : NsField) (e : String), req.Spaces &&& f.flag ≠ 0 →
      unitErr o f.flag = some e →
      ∃ s₁ s₂, joinComma ((failList o req.Spaces roomOrder).map errPart)
        = s₁ ++ (Name f.flag ++ ":" ++ e) ++ s₂) ∧
    (∀ f : NsField, req.Spaces &&& f.flag ≠ 0 → unitErr o f.flag = none →
      0 < (roomAccFinal o req k).resp.get f ∧
      Event.close ((roomAccFinal o req k).resp.get f) ∈ (Room o req k).2.2) := by
  obtain ⟨hkwf, hpos', hfields, hzero, herrmsg⟩ := roomAccFinal_inv o req k hk hpos
  have hmem₀ : (f₀.flag, e₀) ∈ failList o req.Spaces roomOrder := by
    rw [failList]
    exact List.mem_filterMap.mpr
      ⟨f₀, List.mem_filter.mpr ⟨mem_roomOrder f₀, by simpa using hreq₀⟩,
        by simp [herr₀]⟩
  have hne : (roomAccFinal o req k).errmsg ≠ "" := by
    rw [herrmsg]
    rcases hfl : failList o req.Spaces roomOrder with _ | ⟨p, rest⟩
    · rw [hfl] at hmem₀; simp at hmem₀
    · rw [List.foldl_cons]
      exact foldl_addErr_ne rest _ (addErr_ne_empty _ _ _)
  have hjoin : (roomAccFinal o req k).errmsg
      = joinComma ((failList o req.Spaces roomOrder).map errPart) := by
    rw [herrmsg, foldl_addErr_from_empty]
  have hroom : Room o req k
      = (.error ⟨(roomAccFinal o req k).errmsg⟩, (roomAccFinal o req k).k,
          (roomAccFinal o req k).trace
            ++ roomCloseEvents (roomAccFinal o req k).resp) := by
    rw [room_eq_of_valid o req k hv1 hv2, if_pos hne]
  refine ⟨by rw [hroom, hjoin], fun f e hreq herrf => ?_, fun f hreq hokf => ?_⟩
  · have hmem : (f.flag, e) ∈ failList o req.Spaces roomOrder := by
      rw [failList]
      exact List.mem_filterMap.mpr
        ⟨f, List.mem_filter.mpr ⟨mem_roomOrder f, by simpa using hreq⟩,
          by simp [herrf]⟩
    have hmem' : Name f.flag ++ ":" ++ e
        ∈ (failList o req.Spaces roomOrder).map errPart :=
      List.mem_map.mpr ⟨(f.flag, e), hmem, rfl⟩
    exact joinComma_infix _ _ hmem'
  · obtain ⟨h1, _, _⟩ := hfields f (mem_roomOrder f) hreq hokf
    refine ⟨h1, ?_⟩
    rw [hroom]
    have hcl : Event.close ((roomAccFinal o req k).resp.get f)
        ∈ roomCloseEvents (roomAccFinal o req k).resp := by
      rw [roomCloseEvents]
      exact List.mem_map.mpr
        ⟨f, List.mem_filter.mpr ⟨mem_roomOrder f, by simpa using h1⟩, rfl⟩
    exact List.mem_append.mpr (Or.inr hcl)

/-- A failure oracle where only the net namespace unshare fails. -/
def netFailOracle : FailOracle :=
  ⟨fun _ => none, none, fun t => if t = CLONE_NEWNET then some "boom" else none,
    none, fun _ => none⟩

/-- Witness for C3: requesting net and uts with the net unshare failing. -/
theorem room_failure_unwinds_and_aggregates_witness :
    ((CLONE_NEWNET ||| CLONE_NEWUTS) &&& (UINT64MAX ^^^ validSpaces) = 0 ∧
      (CLONE_NEWNET ||| CLONE_NEWUTS) &&& validSpaces ≠ 0 ∧
      KWF ⟨3, []⟩ ∧ (0 : Int) < (3 : Int) ∧
      (CLONE_NEWNET ||| CLONE_NEWUTS) &&& NsField.Net.flag ≠ 0 ∧
      unitErr netFailOracle NsField.Net.flag = some "boom") ∧
    ((Room netFailOracle ⟨CLONE_NEWNET ||| CLONE_NEWUTS⟩ ⟨3, []⟩).1
        = .error ⟨joinComma ((failList netFailOracle (CLONE_NEWNET ||| CLONE_NEWUTS)
            roomOrder).map errPart)⟩ ∧
      (∀ (f : NsField) (e : String),
        (CLONE_NEWNET ||| CLONE_NEWUTS) &&& f.flag ≠ 0 →
        unitErr netFailOracle f.flag = some e →
        ∃ s₁ s₂, joinComma ((failList netFailOracle (CLONE_NEWNET ||| CLONE_NEWUTS)
            roomOrder).map errPart)
          = s₁ ++ (Name f.flag ++ ":" ++ e) ++ s₂) ∧
      (∀ f : NsField, (CLONE_NEWNET ||| CLONE_NEWUTS) &&& f.flag ≠ 0 →
        unitErr netFailOracle f.flag = none →
        0 < (roomAccFinal netFailOracle ⟨CLONE_NEWNET ||| CLONE_NEWUTS⟩ ⟨3, []⟩).resp.get f ∧
        Event.close
            ((roomAccFinal netFailOracle ⟨CLONE_NEWNET ||| CLONE_NEWUTS⟩ ⟨3, []⟩).resp.get f)
          ∈ (Room netFailOracle ⟨CLONE_NEWNET ||| CLONE_NEWUTS⟩ ⟨3, []⟩).2.2)) :=
  ⟨⟨by decide, by decide, by intro p hp; simp at hp, by decide, by decide, by rfl⟩,
    room_failure_unwinds_and_aggregates netFailOracle ⟨CLONE_NEWNET ||| CLONE_NEWUTS⟩
      ⟨3, []⟩ (by decide) (by decide) (by intro p hp; simp at hp) (by decide)
      .Net "boom" (by decide) (by rfl)⟩

/-! ### C5: wire codec round-trip -/

lemma decInt_encInt (i : Int) (rest : List Nat) :
    decInt (encInt i ++ rest) = some (i, rest) := by
  by_cases h : i < 0
  · have he : encInt i = [1, i.natAbs] := by rw [encInt, if_pos h]
    rw [he]
    show some (if (1 : Nat) = 1 then -(i.natAbs : Int) else (i.natAbs : Int), rest)
      = some (i, rest)
    rw [if_pos rfl]
    have hv : -((i.natAbs : Nat) : Int) = i := by omega
    rw [hv]
  · have he : encInt i = [0, i.natAbs] := by rw [encInt, if_neg h]
    rw [he]
    show some (if (0 : Nat) = 1 then -(i.natAbs : Int) else (i.natAbs : Int), rest)
      = some (i, rest)
    rw [if_neg (by decide)]
    have hv : ((i.natAbs : Nat) : Int) = i := by omega
    rw [hv]

lemma decStr_encStr (s : String) (rest : List Nat) :
    decStr (encStr s ++ rest) = some (s, rest) := by
  rw [encStr, List.cons_append, decStr]
  have h1 : s.length = (s.data.map Char.toNat).length := by
    rw [List.length_map]
    rfl
  rw [if_pos (by simp [List.length_append])]
  congr 1
  refine Prod.ext ?_ ?_
  · show String.mk (((s.data.map Char.toNat ++ rest).take s.length).map Char.ofNat) = s
    rw [h1, List.take_left, List.map_map]
    have : (Char.ofNat ∘ Char.toNat) = id := by
      funext c
      exact Char.ofNat_toNat c
    rw [this, List.map_id]
  · show (s.data.map Char.toNat ++ rest).drop s.length = rest
    rw [h1, List.drop_left]

lemma borrow_snd (l : List Int) (x : Int) :
    (borrow l x).2 = if x ≤ 0 then x else 0 := by
  rw [borrow]
  split_ifs <;> rfl

lemma roomsEncodeFds_get (r : RoomsResponse) (f : NsField) :
    (RoomsResponse.EncodeFds r).2.get f = if r.get f ≤ 0 then r.get f else 0 := by
  cases f <;> simp [RoomsResponse.EncodeFds, RoomsResponse.get, borrow_snd]

lemma subspaceEncodeFds_fields (s : SubspaceResponse) :
    (SubspaceResponse.EncodeFds s).2.Conn = (if s.Conn ≤ 0 then s.Conn else 0) ∧
    (SubspaceResponse.EncodeFds s).2.User = (if s.User ≤ 0 then s.User else 0) ∧
    (SubspaceResponse.EncodeFds s).2.PID = (if s.PID ≤ 0 then s.PID else 0) := by
  refine ⟨?_, ?_, ?_⟩ <;> simp [SubspaceResponse.EncodeFds, borrow_snd]

/-- C5: encoding any registered request or response variant with the wire
codec and decoding the produced stream yields a value with identical public
fields; and the handle-valued fields that EncodeFds moved into the auxiliary
handle set (those that were positive) are zero in the value that is actually
serialized, while non-moved fields are unchanged. -/
theorem wire_codec_roundtrip :
    (∀ m : Msg, decodeMsg (encodeMsg m) = some m) ∧
    (∀ (r : RoomsResponse) (f : NsField),
      (0 < r.get f → (RoomsResponse.EncodeFds r).2.get f = 0) ∧
      (r.get f ≤ 0 → (RoomsResponse.EncodeFds r).2.get f = r.get f)) ∧
    (∀ s : SubspaceResponse,
      ((0 < s.Conn → (SubspaceResponse.EncodeFds s).2.Conn = 0) ∧
        (s.Conn ≤ 0 → (SubspaceResponse.EncodeFds s).2.Conn = s.Conn)) ∧
      ((0 < s.User → (SubspaceResponse.EncodeFds s).2.User = 0) ∧
        (s.User ≤ 0 → (SubspaceResponse.EncodeFds s).2.User = s.User)) ∧
      ((0 < s.PID → (SubspaceResponse.EncodeFds s).2.PID = 0) ∧
        (s.PID ≤ 0 → (SubspaceResponse.EncodeFds s).2.PID = s.PID))) := by
  refine ⟨fun m => ?_, fun r f => ?_, fun s => ?_⟩
  · cases m with
    | errorResponse r =>
      have h := decStr_encStr r.Reason []
      rw [List.append_nil] at h
      simp [encodeMsg, decodeMsg, h]
    | subspaceRequest r => rfl
    | subspaceResponse r =>
      have h3 := decInt_encInt r.PID []
      rw [List.append_nil] at h3
      simp [encodeMsg, decodeMsg, List.append_assoc, decInt_encInt, h3]
    | roomsRequest r => rfl
    | roomsResponse r =>
      have h6 := decInt_encInt r.UTS []
      rw [List.append_nil] at h6
      simp [encodeMsg, decodeMsg, List.append_assoc, decInt_encInt, h6]
  · rw [roomsEncodeFds_get]
    constructor <;> intro h <;> split_ifs <;> first | rfl | omega
  · obtain ⟨h1, h2, h3⟩ := subspaceEncodeFds_fields s
    rw [h1, h2, h3]
    refine ⟨⟨?_, ?_⟩, ⟨?_, ?_⟩, ⟨?_, ?_⟩⟩ <;>
      intro h <;> split_ifs <;> first | rfl | omega

/-- Witness for C5: a concrete round-trip through the codec, and a concrete
moved handle field zeroed by EncodeFds. -/
theorem wire_codec_roundtrip_witness :
    decodeMsg (encodeMsg (.roomsResponse ⟨4, 0, 0, 0, 0, 14⟩))
        = some (.roomsResponse ⟨4, 0, 0, 0, 0, 14⟩) ∧
    (0 : Int) < 4 ∧
    (RoomsResponse.EncodeFds ⟨4, 0, 0, 0, 0, 14⟩).2.get .Cgroup = 0 :=
  ⟨wire_codec_roundtrip.1 (.roomsResponse ⟨4, 0, 0, 0, 0, 14⟩),
    by decide,
    (wire_codec_roundtrip.2.1 ⟨4, 0, 0, 0, 0, 14⟩ .Cgroup).1 (by decide)⟩

end Spacetest
